import Mathlib

/-!
# Verification of the pydepgraph dependency-tree annotator and cache

A shallow embedding of `pydepgraph/get_dependencies.py`,
`pydepgraph/pydepgraph.py` and `pydepgraph/graph_dependencies.py`.

Modelling decisions, stated once here:

* A `pipdeptree` JSON node (a Python dict with fields `"key"`,
  `"package_name"`, `"size"` and `"dependencies"`) is the inductive
  `PkgNode`.  The `"size"` field is `Option String`: `none` before
  annotation, `some s` after `package["size"] = s`.
* Python dicts used as string-keyed mappings (the `_package_sizes` memo and
  the JSON cache object) are association lists; `dictGet` is `d[k]` /
  `k in d`, `dictSet` is `d[k] = v` (overwrite in place, else append, which
  matches dict insertion order).
* The external collaborators are function parameters: `deptree_src` stands
  for `get_deptree` (the `pipdeptree` subprocess) and `oracle` stands for
  `get_package_size` (the `pip show` + `du` subprocesses).  Both are
  deterministic functions of the package name, which models an unchanging
  installed environment during one run.
* `add_package_sizes` additionally returns the list of `(key, package_name)`
  pairs at which `get_package_size` was actually invoked, so that call
  counts are observable; the Python function instead performs those calls as
  side effects.  The `_pkg_ind` counter and the `print` progress lines do
  not influence the tree, the memo or the calls and are omitted; the
  `_is_root` flag only changes the Python return arity (memo at the root,
  memo-and-index below), which the tuple result subsumes.
* Machine floats: `kbytes_to_human_readable` divides a Python float by
  `1024.0`, which only shifts the exponent and is exact for every value the
  claims touch; the embedding therefore uses `ℚ`.  `int(x)` is truncation
  towards zero (`pyTrunc`).
-/

namespace Pydepgraph

/-- A node of the pipdeptree JSON tree: dict with `"key"`, `"package_name"`,
an optional `"size"` (absent before annotation) and `"dependencies"`. -/
inductive PkgNode where
  | mk (key : String) (package_name : String) (size : Option String)
      (dependencies : List PkgNode)

/-- `package["key"]`. -/
def PkgNode.key : PkgNode → String
  | .mk k _ _ _ => k

/-- `package["package_name"]`. -/
def PkgNode.package_name : PkgNode → String
  | .mk _ n _ _ => n

/-- `package.get("size")`: `none` before annotation. -/
def PkgNode.size : PkgNode → Option String
  | .mk _ _ s _ => s

/-- `package.get("dependencies", [])`. -/
def PkgNode.dependencies : PkgNode → List PkgNode
  | .mk _ _ _ d => d

/-- The `_package_sizes` memo: a dict from package key to size string. -/
abbrev Memo := List (String × String)

/-- Python `d[k]` / `k in d` on a string-keyed dict. -/
def dictGet {α : Type} (m : List (String × α)) (k : String) : Option α :=
  match m with
  | [] => none
  | (k2, v) :: rest => if k2 = k then some v else dictGet rest k

/-- Python `d[k] = v`: overwrite the existing entry in place, otherwise
append (dict insertion order). -/
def dictSet {α : Type} (m : List (String × α)) (k : String) (v : α) :
    List (String × α) :=
  match m with
  | [] => [(k, v)]
  | (k2, w) :: rest =>
    if k2 = k then (k2, v) :: rest else (k2, w) :: dictSet rest k v

/-- `get_dependencies.py` lines 184–186: when `package["key"]` is not in the
memo, invoke `get_package_size(package["package_name"])` (the invocation is
recorded as the `(key, package_name)` pair in the second component) and store
the result under the key; otherwise leave the memo alone. -/
def memoStep (oracle : String → String) (memo : Memo) (k n : String) :
    Memo × List (String × String) :=
  match dictGet memo k with
  | some _ => (memo, [])
  | none => ((k, oracle n) :: memo, [(k, n)])

/-- `get_dependencies.py` lines 183–212, `add_package_sizes`: walk `packages`
in listing order; for each package, if `package["key"] not in _package_sizes`
invoke `get_package_size(package["package_name"])` and store it in the memo
(`memoStep`); set `package["size"]` from the memo; recurse into
`package["dependencies"]` when that list is truthy (non-empty), threading
the same memo.  Returns the annotated forest, the final memo and the log of
size-lookup invocations. -/
def add_package_sizes (oracle : String → String) :
    List PkgNode → Memo → List PkgNode × Memo × List (String × String)
  | [], memo => ([], memo, [])
  | .mk k n _s deps :: rest, memo =>
    -- lines 184–186: `if package["key"] not in _package_sizes: ...`
    let m1 := memoStep oracle memo k n
    -- line 188: `package["size"] = _package_sizes[package["key"]]`
    let sz := (dictGet m1.1 k).getD ""
    -- lines 200–207: recurse when `package.get("dependencies", None)` is truthy
    let d := if deps.isEmpty then (deps, m1.1, ([] : List (String × String)))
             else add_package_sizes oracle deps m1.1
    let r := add_package_sizes oracle rest d.2.1
    (.mk k n (some sz) d.1 :: r.1, r.2.1, m1.2 ++ d.2.2 ++ r.2.2)

/-- All nodes of a forest, in the visiting order of `add_package_sizes`
(each node before its dependencies, siblings in listing order). -/
def nodesOf : List PkgNode → List PkgNode
  | [] => []
  | .mk k n s deps :: rest => .mk k n s deps :: (nodesOf deps ++ nodesOf rest)

@[simp] theorem PkgNode.key_mk (k n : String) (s : Option String)
    (d : List PkgNode) : (PkgNode.mk k n s d).key = k := rfl

@[simp] theorem PkgNode.package_name_mk (k n : String) (s : Option String)
    (d : List PkgNode) : (PkgNode.mk k n s d).package_name = n := rfl

@[simp] theorem PkgNode.size_mk (k n : String) (s : Option String)
    (d : List PkgNode) : (PkgNode.mk k n s d).size = s := rfl

@[simp] theorem PkgNode.dependencies_mk (k n : String) (s : Option String)
    (d : List PkgNode) : (PkgNode.mk k n s d).dependencies = d := rfl

/-! ## Unfolding and bookkeeping lemmas for the annotation walk -/

theorem add_package_sizes_nil (oracle : String → String) (memo : Memo) :
    add_package_sizes oracle [] memo = ([], memo, []) := by
  simp [add_package_sizes]

/-- The guard `if package.get("dependencies", None):` only skips a recursive
call on an empty list, which is the identity on the state, so the walk on a
cons cell always decomposes into head step, dependencies walk, siblings
walk. -/
theorem add_package_sizes_cons (oracle : String → String) (k n : String)
    (s : Option String) (deps rest : List PkgNode) (memo : Memo) :
    add_package_sizes oracle (.mk k n s deps :: rest) memo =
      (.mk k n (some ((dictGet (memoStep oracle memo k n).1 k).getD ""))
          (add_package_sizes oracle deps (memoStep oracle memo k n).1).1 ::
         (add_package_sizes oracle rest
           (add_package_sizes oracle deps (memoStep oracle memo k n).1).2.1).1,
       (add_package_sizes oracle rest
         (add_package_sizes oracle deps (memoStep oracle memo k n).1).2.1).2.1,
       (memoStep oracle memo k n).2 ++
         (add_package_sizes oracle deps (memoStep oracle memo k n).1).2.2 ++
         (add_package_sizes oracle rest
           (add_package_sizes oracle deps (memoStep oracle memo k n).1).2.1).2.2) := by
  by_cases h : deps.isEmpty
  · have hd : deps = [] := by simpa using h
    subst hd
    simp [add_package_sizes]
  · simp [add_package_sizes, h]

theorem memoStep_fst_get (oracle : String → String) (memo : Memo)
    (k n k2 : String) :
    dictGet (memoStep oracle memo k n).1 k2 =
      if k2 = k ∧ dictGet memo k = none then some (oracle n)
      else dictGet memo k2 := by
  rcases hmk : dictGet memo k with _ | v
  · simp only [memoStep, hmk]
    rcases eq_or_ne k2 k with rfl | hne
    · simp [dictGet, hmk]
    · simp [dictGet, hne, Ne.symm hne]
  · simp only [memoStep, hmk]
    rcases eq_or_ne k2 k with rfl | hne
    · simp [hmk]
    · simp [hne]

theorem memoStep_snd (oracle : String → String) (memo : Memo) (k n : String) :
    (memoStep oracle memo k n).2 =
      if dictGet memo k = none then [(k, n)] else [] := by
  rcases hmk : dictGet memo k with _ | v <;> simp [memoStep, hmk]

/-- The interface each phase of the walk satisfies: keys present afterwards
are the keys present before plus the keys at which the size lookup was
invoked; the invoked keys are pairwise distinct; and every invoked key was
absent from the incoming memo. -/
def StepSpec (m0 m1 : Memo) (calls : List String) : Prop :=
  (∀ k2, (dictGet m1 k2).isSome ↔ ((dictGet m0 k2).isSome ∨ k2 ∈ calls)) ∧
  calls.Nodup ∧
  (∀ k2 ∈ calls, dictGet m0 k2 = none)

theorem stepSpec_memoStep (oracle : String → String) (memo : Memo)
    (k n : String) :
    StepSpec memo (memoStep oracle memo k n).1 ((memoStep oracle memo k n).2.map Prod.fst) := by
  refine ⟨fun k2 => ?_, ?_, fun k2 hk2 => ?_⟩
  · rw [memoStep_fst_get, memoStep_snd]
    rcases hmk : dictGet memo k with _ | v
    · rcases eq_or_ne k2 k with rfl | hne
      · simp [hmk]
      · simp [hmk, hne]
    · rcases eq_or_ne k2 k with rfl | hne
      · simp [hmk]
      · simp [hmk, hne]
  · rw [memoStep_snd]
    rcases hmk : dictGet memo k with _ | v <;> simp [hmk]
  · rw [memoStep_snd] at hk2
    rcases hmk : dictGet memo k with _ | v
    · simp at hk2
      rw [hk2.2]
      exact hmk
    · simp [hmk] at hk2

theorem stepSpec_comp {m0 m1 m2 : Memo} {c1 c2 : List String}
    (h1 : StepSpec m0 m1 c1) (h2 : StepSpec m1 m2 c2) :
    StepSpec m0 m2 (c1 ++ c2) := by
  obtain ⟨h1a, h1b, h1c⟩ := h1
  obtain ⟨h2a, h2b, h2c⟩ := h2
  refine ⟨fun k2 => ?_, ?_, fun k2 hk2 => ?_⟩
  · rw [h2a, h1a, List.mem_append]
    tauto
  · rw [List.nodup_append]
    refine ⟨h1b, h2b, fun k2 hk2 hk2' => ?_⟩
    have : (dictGet m1 k2).isSome := (h1a k2).mpr (Or.inr hk2)
    rw [h2c k2 hk2'] at this
    simp at this
  · rcases List.mem_append.mp hk2 with hc1 | hc2
    · exact h1c k2 hc1
    · have hnone := h2c k2 hc2
      have : ¬ (dictGet m1 k2).isSome := by simp [hnone]
      rw [h1a] at this
      push_neg at this
      simpa using this.1

theorem stepSpec_refl (m : Memo) : StepSpec m m [] := by
  refine ⟨fun k2 => by simp, by simp, by simp⟩

/-- The whole walk satisfies the step interface. -/
theorem add_package_sizes_stepSpec (oracle : String → String) :
    ∀ (packages : List PkgNode) (memo : Memo),
      StepSpec memo (add_package_sizes oracle packages memo).2.1
        ((add_package_sizes oracle packages memo).2.2.map Prod.fst)
  | [], memo => by
    rw [add_package_sizes_nil]
    exact stepSpec_refl memo
  | .mk k n s deps :: rest, memo => by
    rw [add_package_sizes_cons]
    have hhead := stepSpec_memoStep oracle memo k n
    have hdeps := add_package_sizes_stepSpec oracle deps (memoStep oracle memo k n).1
    have hrest := add_package_sizes_stepSpec oracle rest
      (add_package_sizes oracle deps (memoStep oracle memo k n).1).2.1
    have := stepSpec_comp hhead (stepSpec_comp hdeps hrest)
    simpa using this
termination_by packages _ => sizeOf packages
decreasing_by
  all_goals simp
  all_goals omega

/-- If the incoming memo maps every key `k2` it contains to `oracle (f k2)`,
and the name assignment `f` agrees with every node of the forest, then the
walk maintains that memo property and stamps every node of the annotated
forest with `oracle` of that node's own package name. -/
theorem add_package_sizes_sizes (oracle f : String → String) :
    ∀ (packages : List PkgNode) (memo : Memo),
      (∀ q ∈ nodesOf packages, f q.key = q.package_name) →
      (∀ k2 v, dictGet memo k2 = some v → v = oracle (f k2)) →
      (∀ k2 v, dictGet (add_package_sizes oracle packages memo).2.1 k2 = some v →
          v = oracle (f k2)) ∧
        (∀ q ∈ nodesOf (add_package_sizes oracle packages memo).1,
          q.size = some (oracle q.package_name))
  | [], memo, _hf, hmemo => by
    rw [add_package_sizes_nil]
    exact ⟨hmemo, by simp [nodesOf]⟩
  | .mk k n s deps :: rest, memo, hf, hmemo => by
    rw [add_package_sizes_cons]
    have hfk : f k = n := by
      have := hf (.mk k n s deps) (by simp [nodesOf])
      simpa using this
    have hmemo1 : ∀ k2 v, dictGet (memoStep oracle memo k n).1 k2 = some v →
        v = oracle (f k2) := by
      intro k2 v hv
      rw [memoStep_fst_get] at hv
      by_cases hc : k2 = k ∧ dictGet memo k = none
      · rw [if_pos hc] at hv
        cases hv
        rw [hc.1, hfk]
      · rw [if_neg hc] at hv
        exact hmemo k2 v hv
    have hfdeps : ∀ q ∈ nodesOf deps, f q.key = q.package_name := by
      intro q hq
      apply hf q
      simp only [nodesOf, List.mem_cons, List.mem_append]
      exact Or.inr (Or.inl hq)
    have hdeps := add_package_sizes_sizes oracle f deps
      (memoStep oracle memo k n).1 hfdeps hmemo1
    have hfrest : ∀ q ∈ nodesOf rest, f q.key = q.package_name := by
      intro q hq
      apply hf q
      simp only [nodesOf, List.mem_cons, List.mem_append]
      exact Or.inr (Or.inr hq)
    have hrest := add_package_sizes_sizes oracle f rest
      (add_package_sizes oracle deps (memoStep oracle memo k n).1).2.1
      hfrest hdeps.1
    refine ⟨hrest.1, ?_⟩
    have hsz : (dictGet (memoStep oracle memo k n).1 k).getD "" = oracle n := by
      rw [memoStep_fst_get]
      rcases hmk : dictGet memo k with _ | v
      · simp [hfk]
      · have hv := hmemo k v hmk
        simp [hmk, hv, hfk]
    intro q hq
    simp only [nodesOf, List.mem_cons, List.mem_append] at hq
    rcases hq with rfl | hq | hq
    · simp [hsz]
    · exact hdeps.2 q hq
    · exact hrest.2 q hq
termination_by packages _ => sizeOf packages
decreasing_by
  all_goals simp
  all_goals omega

/-! ## Demo inputs for concrete evaluations -/

/-- A demo size oracle: the size of package `n` is the string `n ++ "KB"`. -/
def demoOracle (n : String) : String := n ++ "KB"

/-- A demo forest in which the package `"Gamma"` occurs under two different
keys, and `"alpha"`'s subtree is non-trivial. -/
def demoForest : List PkgNode :=
  [.mk "alpha" "Alpha" none [.mk "gamma" "Gamma" none []],
   .mk "gamma2" "Gamma" none []]

/-! ## Claim C1 and C3 theorems -/

/-- **C1**: over any dependency forest, starting from an empty memo, the
size-lookup collaborator `get_package_size` is invoked at most once per
distinct package key across the whole annotation run: the keys in the
invocation log are pairwise distinct, so a repeated key never re-invokes the
lookup (its second occurrence is resolved from the memo). -/
theorem add_package_sizes_lookup_at_most_once (oracle : String → String)
    (packages : List PkgNode) :
    (((add_package_sizes oracle packages []).2.2).map Prod.fst).Nodup :=
  (add_package_sizes_stepSpec oracle packages []).2.1

/-- **C3**: in one annotation run over a single forest whose keys are
consistent (equal keys carry equal package names, as pipdeptree guarantees),
any two annotated nodes sharing a `package_name` carry equal size strings,
even when their keys differ. -/
theorem add_package_sizes_size_by_package (oracle : String → String)
    (packages : List PkgNode)
    (hkeys : ∀ q1 ∈ nodesOf packages, ∀ q2 ∈ nodesOf packages,
      q1.key = q2.key → q1.package_name = q2.package_name)
    (q1 q2 : PkgNode)
    (h1 : q1 ∈ nodesOf (add_package_sizes oracle packages []).1)
    (h2 : q2 ∈ nodesOf (add_package_sizes oracle packages []).1)
    (hname : q1.package_name = q2.package_name) :
    q1.size = q2.size := by
  classical
  have hex : ∃ f : String → String,
      ∀ q ∈ nodesOf packages, f q.key = q.package_name := by
    refine ⟨fun k2 =>
      if h : ∃ q, q ∈ nodesOf packages ∧ q.key = k2
      then (Classical.choose h).package_name else "", ?_⟩
    intro q hq
    have hx : ∃ q', q' ∈ nodesOf packages ∧ q'.key = q.key := ⟨q, hq, rfl⟩
    show (if h : ∃ q', q' ∈ nodesOf packages ∧ q'.key = q.key
      then (Classical.choose h).package_name else "") = q.package_name
    rw [dif_pos hx]
    obtain ⟨hmem, hkey⟩ := Classical.choose_spec hx
    exact hkeys _ hmem q hq hkey
  obtain ⟨f, hf⟩ := hex
  have hres := add_package_sizes_sizes oracle f packages [] hf
    (fun k2 v hv => by simp [dictGet] at hv)
  rw [hres.2 q1 h1, hres.2 q2 h2, hname]

/-- Witness for C3 at a concrete input: in `demoForest` the package
`"Gamma"` occurs under the two keys `"gamma"` and `"gamma2"`, and both
annotated occurrences carry the size string `"GammaKB"`. -/
theorem add_package_sizes_size_by_package_witness :
    (∀ q1 ∈ nodesOf demoForest, ∀ q2 ∈ nodesOf demoForest,
      q1.key = q2.key → q1.package_name = q2.package_name) ∧
    (PkgNode.mk "gamma" "Gamma" (some "GammaKB") []) ∈
      nodesOf (add_package_sizes demoOracle demoForest []).1 ∧
    (PkgNode.mk "gamma2" "Gamma" (some "GammaKB") []) ∈
      nodesOf (add_package_sizes demoOracle demoForest []).1 ∧
    (PkgNode.mk "gamma" "Gamma" (some "GammaKB") []).size =
      (PkgNode.mk "gamma2" "Gamma" (some "GammaKB") []).size := by
  have hkeys : ∀ q1 ∈ nodesOf demoForest, ∀ q2 ∈ nodesOf demoForest,
      q1.key = q2.key → q1.package_name = q2.package_name := by
    simp only [demoForest, nodesOf, List.forall_mem_cons, List.forall_mem_nil]
    simp
  have h1 : (PkgNode.mk "gamma" "Gamma" (some "GammaKB") []) ∈
      nodesOf (add_package_sizes demoOracle demoForest []).1 := by
    simp [demoForest, demoOracle, add_package_sizes, memoStep, dictGet, nodesOf]
  have h2 : (PkgNode.mk "gamma2" "Gamma" (some "GammaKB") []) ∈
      nodesOf (add_package_sizes demoOracle demoForest []).1 := by
    simp [demoForest, demoOracle, add_package_sizes, memoStep, dictGet, nodesOf]
  exact ⟨hkeys, h1, h2,
    add_package_sizes_size_by_package demoOracle demoForest hkeys _ _ h1 h2 rfl⟩

/-! ## `kbytes_to_human_readable` (`get_dependencies.py` lines 55–85)

The source operates on Python floats.  Every arithmetic step it performs on
the claims' inputs (comparison with `1024.0`, division by `1024.0`, `int()`
truncation) is exact in binary floating point, so the embedding uses `ℚ`. -/

/-- The Python exceptions the embedded code can raise. -/
inductive PyExc where
  | fileNotFound
  | jsonDecode
  | keyError
  | typeError
  | valueError
  deriving DecidableEq, Repr

/-- Python `int(x)` on a float: truncation towards zero. -/
def pyTrunc (q : ℚ) : Int := if 0 ≤ q then ⌊q⌋ else ⌈q⌉

/-- The unit ladder iterated by the `for` loop at line 81. -/
def sizeUnits : List String := ["KB", "MB", "GB", "TB", "PB", "EB", "ZB"]

/-- Lines 81–85: return `f"{int(num_kbytes)}{unit}"` as soon as
`abs(num_kbytes) < 1024.0`, else divide by `1024.0` and move to the next
unit.  Falling off the loop reaches `return f"{num_kbytes:3d} YB"` (line
85); after seven divisions by `1024.0` the value is a Python float, and
format code `d` applied to a float raises
`ValueError: Unknown format code 'd' for object of type 'float'`, so the
fall-through case is an error, never a string. -/
def kbytesLoop : List String → ℚ → Except PyExc String
  | [], _x => .error .valueError
  | unit :: units, x =>
    if |x| < 1024 then .ok (toString (pyTrunc x) ++ unit)
    else kbytesLoop units (x / 1024)

/-- `get_dependencies.py` lines 55–85, `kbytes_to_human_readable`. -/
def kbytes_to_human_readable (num_kbytes : ℚ) : Except PyExc String :=
  kbytesLoop sizeUnits num_kbytes

/-- **C7**: the boundary cases of `kbytes_to_human_readable`:
1024 KB → "1MB", 1023 KB → "1023KB", 1048576 KB → "1GB", 0 KB → "0KB". -/
theorem kbytes_to_human_readable_boundaries :
    kbytes_to_human_readable 1024 = .ok "1MB" ∧
    kbytes_to_human_readable 1023 = .ok "1023KB" ∧
    kbytes_to_human_readable 1048576 = .ok "1GB" ∧
    kbytes_to_human_readable 0 = .ok "0KB" := by
  refine ⟨?_, ?_, ?_, ?_⟩ <;>
    norm_num [kbytes_to_human_readable, sizeUnits, kbytesLoop, pyTrunc] <;>
    decide

/-- Once the absolute value is at least `1024 ^ (number of units left)`, the
loop falls through every unit and hits the raising line 85. -/
theorem kbytesLoop_overflow : ∀ (units : List String) (x : ℚ),
    1024 ^ units.length ≤ |x| → kbytesLoop units x = .error .valueError
  | [], _x, _h => rfl
  | unit :: units, x, h => by
    have h1024 : (1024 : ℚ) ≤ |x| := by
      calc (1024 : ℚ) = 1024 ^ 1 := (pow_one _).symm
        _ ≤ 1024 ^ (unit :: units).length := by
            apply pow_le_pow_right₀ (by norm_num)
            simp
        _ ≤ |x| := h
    rw [kbytesLoop, if_neg (not_lt.mpr h1024)]
    apply kbytesLoop_overflow units (x / 1024)
    rw [abs_div, abs_of_nonneg (by norm_num : (0:ℚ) ≤ 1024),
      le_div_iff₀ (by norm_num : (0:ℚ) < 1024)]
    calc (1024:ℚ) ^ units.length * 1024 = 1024 ^ (units.length + 1) := by ring
      _ = 1024 ^ (unit :: units).length := by simp
      _ ≤ |x| := h

/-- **C8** (refuted; the code, not the claim, is at fault): for any input of
magnitude at least `1024 ^ 7` kilobytes, `kbytes_to_human_readable` raises
`ValueError` instead of returning a YB-rendered size string, because line 85
applies the integer format code `d` to a float. -/
theorem kbytes_to_human_readable_yb_raises (num_kbytes : ℚ)
    (h : 1024 ^ 7 ≤ |num_kbytes|) :
    kbytes_to_human_readable num_kbytes = .error .valueError :=
  kbytesLoop_overflow sizeUnits num_kbytes (by simpa [sizeUnits] using h)

/-- Witness for C8's failing input: `1024 ^ 7` KB (one yottabyte-scale
value) raises rather than rendering in YB. -/
theorem kbytes_to_human_readable_yb_raises_witness :
    (1024 : ℚ) ^ 7 ≤ |(1024 : ℚ) ^ 7| ∧
    kbytes_to_human_readable ((1024 : ℚ) ^ 7) = .error .valueError :=
  ⟨le_abs_self _, kbytes_to_human_readable_yb_raises _ (le_abs_self _)⟩

/-! ## The persistent cache and `get_deptree_with_sizes`
(`get_dependencies.py` lines 215–305)

The cache file is modelled by its observable state: absent, present but not
valid JSON, or a parsed top-level JSON object mapping package names to
trees.  `json.load` on an open file raises `json.JSONDecodeError` (a
`ValueError` subclass) on unparsable contents; `open` raises
`FileNotFoundError` on an absent file. -/

/-- The observable states of the persistent cache file. -/
inductive CacheFile where
  | absent
  | invalid (raw : String)
  | valid (entries : List (String × List PkgNode))

/-- `json.load(open(cache_file, "r"))`. -/
def json_load_cache : CacheFile → Except PyExc (List (String × List PkgNode))
  | .absent => .error .fileNotFound
  | .invalid _ => .error .jsonDecode
  | .valid m => .ok m

/-- Python truthiness of the `cache_file` argument at line 268
(`if cache_file and not no_cache:`): `None` and `""` are falsy. -/
def pyTruthy : Option String → Bool
  | none => false
  | some s => !s.isEmpty

/-- `get_dependencies.py` lines 215–305, `get_deptree_with_sizes`.
`deptree_src` is `get_deptree` (the pipdeptree subprocess), `oracle` is
`get_package_size`, `memo0` is the state of the `_package_sizes` mutable
default argument when the call starts (empty on a fresh process), `fs` is
the state of the cache file.  Returns the resulting tree together with the
final cache-file state, or the uncaught exception. -/
def get_deptree_with_sizes (deptree_src : String → List PkgNode)
    (oracle : String → String) (package_name : String)
    (cache_file : Option String) (refresh : Bool) (no_cache : Bool)
    (memo0 : Memo) (fs : CacheFile) :
    Except PyExc (List PkgNode × CacheFile) :=
  if pyTruthy cache_file && !no_cache then
    -- lines 272–277: load the entry unless refreshing; only
    -- FileNotFoundError and KeyError are caught
    let loaded : Except PyExc (Option (List PkgNode)) :=
      if refresh then .ok none
      else
        match json_load_cache fs with
        | .error .fileNotFound => .ok none
        | .error e => .error e
        | .ok m =>
          match dictGet m package_name with
          | some t => .ok (some t)
          | none => .ok none
    match loaded with
    | .error e => .error e
    | .ok loadedTree =>
      -- lines 281–285: `if not deptree:` (falsy = `None` or empty list)
      -- collect the dependency tree and annotate it
      let deptree :=
        match loadedTree with
        | some t =>
          if t.isEmpty then
            (add_package_sizes oracle (deptree_src package_name) memo0).1
          else t
        | none => (add_package_sizes oracle (deptree_src package_name) memo0).1
      -- lines 289–296: read-modify-write of the whole cache mapping; only
      -- FileNotFoundError is caught here
      match json_load_cache fs with
      | .error .fileNotFound =>
        .ok (deptree, .valid (dictSet [] package_name deptree))
      | .error e => .error e
      | .ok m => .ok (deptree, .valid (dictSet m package_name deptree))
  else
    -- lines 298–305: no cache file in play: collect, annotate, return
    .ok ((add_package_sizes oracle (deptree_src package_name) memo0).1, fs)

/-- The cache `store` operation exactly as performed by lines 289–296: read
the whole persisted mapping (an absent file is the empty mapping), set the
entry, write the mapping back. -/
def cache_store (fs : CacheFile) (package_name : String)
    (tree : List PkgNode) : Except PyExc CacheFile :=
  match json_load_cache fs with
  | .error .fileNotFound => .ok (.valid (dictSet [] package_name tree))
  | .error e => .error e
  | .ok m => .ok (.valid (dictSet m package_name tree))

/-- The cache `load` operation: `json.load` of the cache file
(lines 290–291). -/
def cache_load (fs : CacheFile) :
    Except PyExc (List (String × List PkgNode)) :=
  json_load_cache fs

theorem dictGet_dictSet_self {α : Type} (m : List (String × α)) (k : String)
    (v : α) : dictGet (dictSet m k v) k = some v := by
  induction m with
  | nil => simp [dictSet, dictGet]
  | cons hd tl ih =>
    obtain ⟨k2, w⟩ := hd
    by_cases h : k2 = k
    · simp [dictSet, dictGet, h]
    · simp [dictSet, dictGet, h, ih]

theorem dictGet_dictSet_ne {α : Type} (m : List (String × α)) (k k2 : String)
    (v : α) (h : k2 ≠ k) : dictGet (dictSet m k v) k2 = dictGet m k2 := by
  induction m with
  | nil => simp [dictSet, dictGet, Ne.symm h]
  | cons hd tl ih =>
    obtain ⟨k3, w⟩ := hd
    by_cases h3 : k3 = k
    · subst h3
      simp [dictSet, dictGet, Ne.symm h]
    · by_cases h2 : k3 = k2
      · subst h2
        simp [dictSet, dictGet, h3]
      · simp [dictSet, dictGet, h3, h2, ih]

/-! ## Claim C2, C4, C5, C6 theorems -/

/-- Counterexample to **C2** as stated: with a cache file that exists but
cannot be parsed as JSON, the call raises the decode error (only
`FileNotFoundError` and `KeyError` are caught at lines 276 and 292) instead
of falling through to fresh computation. -/
theorem get_deptree_with_sizes_unparsable_raises :
    get_deptree_with_sizes (fun _ => demoForest) demoOracle "alpha"
      (some "deps_cache.json") false false [] (.invalid "not json") =
      .error .jsonDecode := rfl

/-- **C2 amended**: a cache file that parses but whose mapping lacks the
requested package name is treated exactly like a cache miss: the call
computes a fresh annotated tree, stores it under the name, and returns it
(rather than raising `KeyError`). -/
theorem get_deptree_with_sizes_missing_key_recomputes
    (deptree_src : String → List PkgNode) (oracle : String → String)
    (package_name : String) (cache_file : Option String) (memo0 : Memo)
    (m : List (String × List PkgNode))
    (hcf : pyTruthy cache_file = true)
    (hmiss : dictGet m package_name = none) :
    get_deptree_with_sizes deptree_src oracle package_name cache_file
        false false memo0 (.valid m) =
      .ok ((add_package_sizes oracle (deptree_src package_name) memo0).1,
        .valid (dictSet m package_name
          (add_package_sizes oracle (deptree_src package_name) memo0).1)) := by
  simp [get_deptree_with_sizes, hcf, json_load_cache, hmiss]

/-- Witness for the amended C2 at a concrete input: a cache holding only
`"beta"` misses on `"alpha"`, and the call returns the freshly annotated
tree and stores it. -/
theorem get_deptree_with_sizes_missing_key_recomputes_witness :
    pyTruthy (some "deps_cache.json") = true ∧
    dictGet [("beta", ([] : List PkgNode))] "alpha" = none ∧
    get_deptree_with_sizes (fun _ => demoForest) demoOracle "alpha"
        (some "deps_cache.json") false false [] (.valid [("beta", [])]) =
      .ok ((add_package_sizes demoOracle demoForest []).1,
        .valid (dictSet [("beta", [])] "alpha"
          (add_package_sizes demoOracle demoForest []).1)) :=
  ⟨rfl, rfl,
    get_deptree_with_sizes_missing_key_recomputes (fun _ => demoForest)
      demoOracle "alpha" (some "deps_cache.json") [] [("beta", [])] rfl rfl⟩

/-- **C4**: with `refresh=True`, `no_cache=False` and a parsable cache
already holding an entry for the package, the cached entry is never
consulted (the result below does not depend on `t0`): a fresh tree is
computed, annotated, written back over the old entry — all other entries
preserved — and returned. -/
theorem get_deptree_with_sizes_refresh_overwrites
    (deptree_src : String → List PkgNode) (oracle : String → String)
    (package_name : String) (cache_file : Option String) (memo0 : Memo)
    (m : List (String × List PkgNode)) (t0 : List PkgNode)
    (hcf : pyTruthy cache_file = true)
    (_hhit : dictGet m package_name = some t0) :
    get_deptree_with_sizes deptree_src oracle package_name cache_file
        true false memo0 (.valid m) =
      .ok ((add_package_sizes oracle (deptree_src package_name) memo0).1,
        .valid (dictSet m package_name
          (add_package_sizes oracle (deptree_src package_name) memo0).1)) ∧
    dictGet (dictSet m package_name
        (add_package_sizes oracle (deptree_src package_name) memo0).1)
        package_name =
      some (add_package_sizes oracle (deptree_src package_name) memo0).1 ∧
    (∀ k2, k2 ≠ package_name →
      dictGet (dictSet m package_name
          (add_package_sizes oracle (deptree_src package_name) memo0).1) k2 =
        dictGet m k2) := by
  refine ⟨?_, dictGet_dictSet_self _ _ _,
    fun k2 h2 => dictGet_dictSet_ne _ _ _ _ h2⟩
  simp [get_deptree_with_sizes, hcf, json_load_cache]

/-- Witness for C4 at a concrete input: a cache holding a stale entry for
`"alpha"` and an unrelated entry for `"beta"`. -/
theorem get_deptree_with_sizes_refresh_overwrites_witness :
    pyTruthy (some "deps_cache.json") = true ∧
    dictGet [("alpha", [PkgNode.mk "old" "Old" (some "OldKB") []]),
        ("beta", ([] : List PkgNode))] "alpha" =
      some [PkgNode.mk "old" "Old" (some "OldKB") []] ∧
    (get_deptree_with_sizes (fun _ => demoForest) demoOracle "alpha"
        (some "deps_cache.json") true false []
        (.valid [("alpha", [PkgNode.mk "old" "Old" (some "OldKB") []]),
          ("beta", [])]) =
      .ok ((add_package_sizes demoOracle demoForest []).1,
        .valid (dictSet
          [("alpha", [PkgNode.mk "old" "Old" (some "OldKB") []]), ("beta", [])]
          "alpha" (add_package_sizes demoOracle demoForest []).1)) ∧
      dictGet (dictSet
          [("alpha", [PkgNode.mk "old" "Old" (some "OldKB") []]), ("beta", [])]
          "alpha" (add_package_sizes demoOracle demoForest []).1) "alpha" =
        some (add_package_sizes demoOracle demoForest []).1 ∧
      (∀ k2, k2 ≠ "alpha" →
        dictGet (dictSet
            [("alpha", [PkgNode.mk "old" "Old" (some "OldKB") []]),
              ("beta", [])]
            "alpha" (add_package_sizes demoOracle demoForest []).1) k2 =
          dictGet [("alpha", [PkgNode.mk "old" "Old" (some "OldKB") []]),
            ("beta", [])] k2)) :=
  ⟨rfl, rfl,
    get_deptree_with_sizes_refresh_overwrites (fun _ => demoForest)
      demoOracle "alpha" (some "deps_cache.json") []
      [("alpha", [PkgNode.mk "old" "Old" (some "OldKB") []]), ("beta", [])]
      [PkgNode.mk "old" "Old" (some "OldKB") []] rfl rfl⟩

/-- **C5**: with `no_cache=True`, for every starting cache-file state the
call leaves the file state unchanged (it is neither read nor written: even
an absent or unparsable file is irrelevant to the result) and returns the
freshly computed annotated tree. -/
theorem get_deptree_with_sizes_no_cache
    (deptree_src : String → List PkgNode) (oracle : String → String)
    (package_name : String) (cache_file : Option String) (refresh : Bool)
    (memo0 : Memo) (fs : CacheFile) :
    get_deptree_with_sizes deptree_src oracle package_name cache_file
        refresh true memo0 fs =
      .ok ((add_package_sizes oracle (deptree_src package_name) memo0).1,
        fs) := by
  simp [get_deptree_with_sizes]

/-- **C6**: storing a tree under a package name (the read-modify-write of
lines 289–296) and then loading the storage yields a mapping that binds
that name to the identical tree. -/
theorem cache_store_then_load (fs : CacheFile) (package_name : String)
    (tree : List PkgNode) (fs2 : CacheFile)
    (hstore : cache_store fs package_name tree = .ok fs2) :
    ∃ m, cache_load fs2 = .ok m ∧ dictGet m package_name = some tree := by
  cases fs with
  | absent =>
    have h2 : CacheFile.valid (dictSet [] package_name tree) = fs2 := by
      simpa [cache_store, json_load_cache] using hstore
    subst h2
    exact ⟨_, rfl, dictGet_dictSet_self _ _ _⟩
  | invalid raw => simp [cache_store, json_load_cache] at hstore
  | valid m =>
    have h2 : CacheFile.valid (dictSet m package_name tree) = fs2 := by
      simpa [cache_store, json_load_cache] using hstore
    subst h2
    exact ⟨_, rfl, dictGet_dictSet_self _ _ _⟩

/-- Witness for C6 at a concrete input: storing into an absent cache file
and loading it back finds the stored tree. -/
theorem cache_store_then_load_witness :
    cache_store .absent "alpha" [PkgNode.mk "a" "Alpha" (some "AlphaKB") []] =
      .ok (.valid (dictSet [] "alpha"
        [PkgNode.mk "a" "Alpha" (some "AlphaKB") []])) ∧
    ∃ m, cache_load (.valid (dictSet [] "alpha"
        [PkgNode.mk "a" "Alpha" (some "AlphaKB") []])) = .ok m ∧
      dictGet m "alpha" = some [PkgNode.mk "a" "Alpha" (some "AlphaKB") []] :=
  ⟨rfl, cache_store_then_load .absent "alpha"
    [PkgNode.mk "a" "Alpha" (some "AlphaKB") []]
    (.valid (dictSet [] "alpha" [PkgNode.mk "a" "Alpha" (some "AlphaKB") []]))
    rfl⟩

/-! ## The `pydepgraph` wrapper (`pydepgraph.py` lines 13–44)

Python binds call arguments before the callee's body runs; a keyword
argument whose name is not among the callee's parameter names makes the
call itself raise `TypeError`.  The wrapper is modelled by that binding
step at its two call sites. -/

/-- The parameter names of `get_deptree_with_sizes`
(`get_dependencies.py` lines 215–217). -/
def get_deptree_with_sizes_param_names : List String :=
  ["package_name", "cache_file", "refresh", "no_cache"]

/-- The parameter names of `draw_graph` (`graph_dependencies.py` line
146). -/
def draw_graph_param_names : List String := ["deptree", "save_path"]

/-- The keyword names `pydepgraph` uses when calling
`get_deptree_with_sizes` (`pydepgraph.py` lines 41–43). -/
def pydepgraph_deptree_kwargs : List String :=
  ["deps_cache_file", "refresh", "no_cache"]

/-- The keyword names `pydepgraph` uses when calling `draw_graph`
(`pydepgraph.py` line 44). -/
def pydepgraph_draw_kwargs : List String := ["figsize"]

/-- Python keyword binding: `f(..., kw=v, ...)` raises `TypeError` before
`f`'s body runs when some keyword is not among `f`'s parameter names. -/
def call_with_kwargs {α : Type} (param_names kwargs : List String)
    (body : α) : Except PyExc α :=
  if kwargs.all (fun kw => param_names.contains kw) then .ok body
  else .error .typeError

/-- `pydepgraph.py` lines 41–44, the body of `pydepgraph`: call
`get_deptree_with_sizes` with keywords `deps_cache_file`, `refresh`,
`no_cache`; only if that call binds does `draw_graph` get called with
keyword `figsize`.  The bodies the two callees would run are irrelevant to
the binding step and are passed in as values. -/
def pydepgraph_wrapper (deptree_body : List PkgNode) (draw_body : Unit) :
    Except PyExc Unit :=
  match call_with_kwargs get_deptree_with_sizes_param_names
      pydepgraph_deptree_kwargs deptree_body with
  | .error e => .error e
  | .ok _deptree =>
    call_with_kwargs draw_graph_param_names pydepgraph_draw_kwargs draw_body

/-- **C9**: for every package and output file (i.e. whatever tree the
collaborators would produce), the wrapper raises `TypeError` before any
tree is returned or drawn: `deps_cache_file` is not among
`get_deptree_with_sizes`'s parameter names (its parameter is `cache_file`),
and `figsize` is not among `draw_graph`'s parameter names. -/
theorem pydepgraph_wrapper_raises_type_error (deptree_body : List PkgNode) :
    pydepgraph_wrapper deptree_body () = .error .typeError ∧
    "deps_cache_file" ∉ get_deptree_with_sizes_param_names ∧
    "figsize" ∉ draw_graph_param_names := by
  refine ⟨rfl, by decide, by decide⟩

/-! ## Module-level file read in `graph_dependencies.py` (lines 184–185) -/

/-- The path opened at module scope, relative to the working directory. -/
def matplotlib_deptree_filename : String := "matplotlib_deptree.json"

/-- The module body of `graph_dependencies` ends with
`with open("matplotlib_deptree.json", "r") as dtree_data:` followed by
`dtree = json.loads(dtree_data.read())`, executed at import time.  `files`
maps a filename to its contents when the file exists; `parse` models
`json.loads`.  The result is the module-level `dtree` value, or the
exception escaping the import. -/
def graph_dependencies_module_body (files : String → Option String)
    (parse : String → Except PyExc (List PkgNode)) :
    Except PyExc (List PkgNode) :=
  match files matplotlib_deptree_filename with
  | none => .error .fileNotFound
  | some raw => parse raw

/-- `pydepgraph.py` line 10 pulls `draw_graph` out of
`graph_dependencies`, which first executes that module's body; the
`pydepgraph` module (the tool's entry point) therefore only loads when the
module body of `graph_dependencies` runs without raising. -/
def pydepgraph_module_load (files : String → Option String)
    (parse : String → Except PyExc (List PkgNode)) : Except PyExc Unit :=
  match graph_dependencies_module_body files parse with
  | .error e => .error e
  | .ok _dtree => .ok ()

/-- **C10**: when `"matplotlib_deptree.json"` does not exist in the current
working directory, the module body of `graph_dependencies` raises
`FileNotFoundError` at import, and with it the load of the `pydepgraph`
entry-point module fails before any operation runs. -/
theorem pydepgraph_module_load_missing_file
    (files : String → Option String)
    (parse : String → Except PyExc (List PkgNode))
    (habsent : files matplotlib_deptree_filename = none) :
    graph_dependencies_module_body files parse = .error .fileNotFound ∧
    pydepgraph_module_load files parse = .error .fileNotFound := by
  constructor <;>
    simp [graph_dependencies_module_body, pydepgraph_module_load, habsent]

/-- Witness for C10 at a concrete input: an empty working directory. -/
theorem pydepgraph_module_load_missing_file_witness :
    ((fun _ : String => (none : Option String)) matplotlib_deptree_filename =
      none) ∧
    graph_dependencies_module_body (fun _ => none) (fun _ => .ok []) =
      .error .fileNotFound ∧
    pydepgraph_module_load (fun _ => none) (fun _ => .ok []) =
      .error .fileNotFound :=
  ⟨rfl,
    (pydepgraph_module_load_missing_file (fun _ => none) (fun _ => .ok [])
      rfl).1,
    (pydepgraph_module_load_missing_file (fun _ => none) (fun _ => .ok [])
      rfl).2⟩

end Pydepgraph
